import Mathlib

/-!
A verification development for `life_calendar_modified.py`, a generator of
"life calendar" grids: one cell per week of a life, rows of 52 weeks,
birthday / new-year / elapsed cells highlighted.

Dates are modelled as proleptic Gregorian calendar dates with year ≥ 1,
mirroring Python's `datetime` (whose 9999-year cap is immaterial here).
Chronological comparison and `timedelta` arithmetic are modelled through
`toOrdinal`, the day count from 0001-01-01 = day 1, exactly Python's
`date.toordinal`; `weekday` is 0 for Monday as in Python.

Fills are modelled as an enumeration naming the module-level colour
constants of the source (the concrete RGB float triples play no role in
the logic).  The drawing backend (cairo) is external; what the code decides
per cell — its date, its fill, its x/y position — is recorded in `Cell`
and `RowData`.  Python's `while` loop in `back_up_to_monday` is modelled
with explicit fuel (7 suffices, as proved below); a `none` result models
non-termination, and exceptions (`ValueError` from `datetime`) are
modelled by `Option`/`Except`.
-/

set_option maxRecDepth 8000

/-- A calendar date, as Python's `datetime.datetime` at midnight (year, month, day). -/
structure Date where
  year : Nat
  month : Nat
  day : Nat
deriving DecidableEq, Repr

/-- Gregorian leap-year rule, as implemented by Python's `calendar`/`datetime`. -/
def isLeap (y : Nat) : Bool :=
  (y % 4 == 0 && y % 100 != 0) || y % 400 == 0

/-- Number of days in month `m` of year `y` (0 for a month outside 1..12). -/
def daysInMonth (y m : Nat) : Nat :=
  match m with
  | 1 => 31
  | 2 => if isLeap y then 29 else 28
  | 3 => 31
  | 4 => 30
  | 5 => 31
  | 6 => 30
  | 7 => 31
  | 8 => 31
  | 9 => 30
  | 10 => 31
  | 11 => 30
  | 12 => 31
  | _ => 0

/-- Validity of (year, month, day) as a `datetime` date: exactly the triples a
Python `datetime.datetime(y, m, d)` constructor accepts (year ≥ 1). -/
def validDate (y m d : Nat) : Prop :=
  1 ≤ y ∧ 1 ≤ m ∧ m ≤ 12 ∧ 1 ≤ d ∧ d ≤ daysInMonth y m

instance (y m d : Nat) : Decidable (validDate y m d) := by
  unfold validDate; infer_instance

/-- Validity of a `Date`. -/
def Date.valid (d : Date) : Prop := validDate d.year d.month d.day

instance (d : Date) : Decidable d.valid := by
  unfold Date.valid; infer_instance

/-- Days of year `y` strictly before the first of month `m`. -/
def daysBeforeMonth (y m : Nat) : Nat :=
  (match m with
   | 1 => 0
   | 2 => 31
   | 3 => 59
   | 4 => 90
   | 5 => 120
   | 6 => 151
   | 7 => 181
   | 8 => 212
   | 9 => 243
   | 10 => 273
   | 11 => 304
   | _ => 334) +
  (if 3 ≤ m ∧ isLeap y then 1 else 0)

/-- Days strictly before January 1 of year `y` (counting from day 1 =
0001-01-01): 365 per elapsed year plus one per elapsed leap year, via the
standard floor-division count (as in Python's `date.toordinal`). -/
def daysBeforeYear (y : Nat) : Nat :=
  365 * (y - 1) + (y - 1) / 4 + (y - 1) / 400 - (y - 1) / 100

/-- Python's `date.toordinal`: 0001-01-01 is day 1. Chronological order and
`timedelta` arithmetic on dates coincide with `Nat` order/arithmetic on ordinals. -/
def toOrdinal (d : Date) : Nat :=
  daysBeforeYear d.year + daysBeforeMonth d.year d.month + d.day

/-- Python's `date.weekday`: 0 = Monday. 0001-01-01 (ordinal 1) is a Monday. -/
def weekday (d : Date) : Nat := (toOrdinal d + 6) % 7

/-- The day after `d` (`d + timedelta(days=1)` for a valid date). -/
def succDate (d : Date) : Date :=
  if d.day < daysInMonth d.year d.month then ⟨d.year, d.month, d.day + 1⟩
  else if d.month < 12 then ⟨d.year, d.month + 1, 1⟩
  else ⟨d.year + 1, 1, 1⟩

/-- The day before `d` (`d - timedelta(days=1)` for a valid date after 0001-01-01). -/
def predDate (d : Date) : Date :=
  if 1 < d.day then ⟨d.year, d.month, d.day - 1⟩
  else if 1 < d.month then ⟨d.year, d.month - 1, daysInMonth d.year (d.month - 1)⟩
  else ⟨d.year - 1, 12, 31⟩

/-- `d + timedelta(days=n)`, as `n` single-day steps. -/
def addDays (d : Date) : Nat → Date
  | 0 => d
  | n + 1 => succDate (addDays d n)

/-- The `while date.weekday() != 0: date -= timedelta(days=1)` loop of
`back_up_to_monday`, with explicit fuel; `none` models non-termination. -/
def back_up_to_monday_fuel : Nat → Date → Option Date
  | 0, _ => none
  | fuel + 1, d => if weekday d = 0 then some d else back_up_to_monday_fuel fuel (predDate d)

/-- `back_up_to_monday` (source lines 105-108): back up day by day to the Monday
of `date`'s week.  Fuel 7 is enough for every valid date (proved below). -/
def back_up_to_monday (d : Date) : Option Date := back_up_to_monday_fuel 7 d

/-- `is_future` (source lines 111-112): `now < date`. -/
def is_future (now date : Date) : Bool := decide (toOrdinal now < toOrdinal date)

/-- One candidate-date construction of `is_current_week` (source lines 120-127):
`datetime(year, month, day)`, and on `ValueError` with `(month, day) = (2, 29)` the
substituted `datetime(year, month, day - 1)`; `none` models a re-raised error. -/
def candidateDate (year month day : Nat) : Option Date :=
  if validDate year month day then some ⟨year, month, day⟩
  else if month = 2 ∧ day = 29 then
    if validDate year 2 (day - 1) then some ⟨year, 2, day - 1⟩ else none
  else none

/-- Membership of `t` in the half-open window `[now, now + 7 days)`, i.e. the
`now <= date < end` test of `is_current_week` with `end = now + timedelta(weeks=1)`. -/
def inWeekWindow (now t : Date) : Bool :=
  decide (toOrdinal now ≤ toOrdinal t) && decide (toOrdinal t < toOrdinal now + 7)

/-- `is_current_week` (source lines 115-131): check the candidate years
`now.year` and `now.year + 1` against `[now, now + 7 days)`; `none` models a
propagated `ValueError`. -/
def is_current_week (now : Date) (month day : Nat) : Option Bool := do
  let d1 ← candidateDate now.year month day
  let d2 ← candidateDate (now.year + 1) month day
  pure (inWeekWindow now d1 || inWeekWindow now d2)

/-- The fill colours a cell can receive, named after the module-level colour
constants of the source; the RGB values themselves are irrelevant to the logic. -/
inductive Fill where
  | backgroundColor
  | birthdayColour
  | newyearColour
  | darkenedColourDelta
deriving DecidableEq, Repr

/-- The per-cell fill choice of `draw_row` (source lines 156-165): birthday
check, elif new-year check, then the darken-until override
`if darken_until_date and is_future(date, darken_until_date)`. -/
def cell_fill (date birth : Date) (darken_until_date : Option Date) : Option Fill := do
  let isBirthday ← is_current_week date birth.month birth.day
  let fill ←
    if isBirthday then pure Fill.birthdayColour
    else do
      let isNewyear ← is_current_week date 1 1
      pure (if isNewyear then Fill.newyearColour else Fill.backgroundColor)
  match darken_until_date with
  | some du => pure (if is_future date du then Fill.darkenedColourDelta else fill)
  | none => pure fill

/-- One cell as `draw_row` draws it: its date, the x position of its square,
and its fill. -/
structure Cell where
  date : Date
  posX : ℚ
  fill : Fill
deriving DecidableEq, Repr

/-- One row as `draw_grid` draws it: its label date, its y position, its 52 cells. -/
structure RowData where
  label : Date
  posY : ℚ
  cells : List Cell
deriving DecidableEq, Repr

/-- The loop of `draw_row` (source lines 155-169): `n` cells starting at `date`
and `pos_x`, stepping `date` by one week and `pos_x` by `box_size + BOX_MARGIN`. -/
def draw_row_go (birth : Date) (darken_until_date : Option Date) (box_size : ℚ) :
    Nat → Date → ℚ → Option (List Cell)
  | 0, _, _ => some []
  | n + 1, date, pos_x => do
    let fill ← cell_fill date birth darken_until_date
    let rest ← draw_row_go birth darken_until_date box_size n (addDays date 7)
      (pos_x + (box_size + 6))
    pure (⟨date, pos_x, fill⟩ :: rest)

/-- `draw_row` (source lines 148-169): a row of `NUM_COLUMNS = 52` squares
starting at `x_margin`. -/
def draw_row (birth date : Date) (box_size x_margin : ℚ)
    (darken_until_date : Option Date) : Option (List Cell) :=
  draw_row_go birth darken_until_date box_size 52 date x_margin

/-- `box_size` as computed in `draw_grid` (source line 189) with
`DOC_HEIGHT = 2383`, `Y_MARGIN = 144`, `BOX_MARGIN = 6`; Python `/` is exact
rational division here. -/
def box_size (num_rows : Nat) : ℚ :=
  ((2383 - (144 + 36)) / (num_rows : ℚ)) - 6

/-- `x_margin` as computed in `draw_grid` (source line 190) with
`DOC_WIDTH = 1683`, `NUM_COLUMNS = 52`. -/
def x_margin (num_rows : Nat) : ℚ :=
  (1683 - ((box_size num_rows + 6) * 52)) / 2

/-- The row loop of `draw_grid` (source lines 225-241): `n` rows starting at
`date` and `pos_y`, stepping `date` by 52 weeks and `pos_y` by
`box_size + BOX_MARGIN` per row. -/
def draw_grid_go (birth : Date) (darken_until_date : Option Date) (bs xm : ℚ) :
    Nat → Date → ℚ → Option (List RowData)
  | 0, _, _ => some []
  | n + 1, date, pos_y => do
    let cells ← draw_row birth date bs xm darken_until_date
    let rest ← draw_grid_go birth darken_until_date bs xm n (addDays date (7 * 52))
      (pos_y + (bs + 6))
    pure (⟨date, pos_y, cells⟩ :: rest)

/-- `draw_grid` (source lines 184-243): computes `box_size` and `x_margin`,
draws `age` rows of 52 cells starting at `pos_y = Y_MARGIN = 144`, and
returns `x_margin` (paired here with the rows it drew). -/
def draw_grid (date birth : Date) (age : Nat) (darken_until_date : Option Date) :
    Option (ℚ × List RowData) := do
  let rows ← draw_grid_go birth darken_until_date (box_size age) (x_margin age)
    age date 144
  pure (x_margin age, rows)

/-- `gen_calendar` (source lines 245-292): title-length check
(`MAX_TITLE_SIZE = 30`), age range check (`MIN_AGE = 80`, `MAX_AGE = 100`),
then `date = back_up_to_monday(birthdate)` and the grid drawing.
`Except.error` models a raised exception. -/
def gen_calendar (birthdate : Date) (title : String) (age : Int)
    (darken_until_date : Option Date) : Except String (ℚ × List RowData) :=
  if title.length > 30 then
    Except.error "Title can-not be longer than 30 characters"
  else if age < 80 ∨ 100 < age then
    Except.error "Invalid age, must be between 80 and 100"
  else
    match back_up_to_monday birthdate with
    | none => Except.error "back_up_to_monday loop did not terminate"
    | some start =>
      match draw_grid start birthdate age.toNat darken_until_date with
      | none => Except.error "invalid date in grid"
      | some g => Except.ok g

/-! ## Occurrences of a (month, day) target year by year -/

/-- Targets `(m, d)` for which `is_current_week`'s candidate construction never
re-raises: `(m, d)` valid in a common year, or the leap target `(2, 29)`. -/
def targetOK (m d : Nat) : Prop :=
  (1 ≤ m ∧ m ≤ 12 ∧ 1 ≤ d ∧ d ≤ daysInMonth 1 m) ∨ (m = 2 ∧ d = 29)

instance (m d : Nat) : Decidable (targetOK m d) := by
  unfold targetOK; infer_instance

/-- The occurrence of target `(m, d)` in year `y` that `is_current_week`
constructs: the date itself when valid, else (for `(2, 29)` in a non-leap
year) February 28. -/
def canDate (y m d : Nat) : Date :=
  if validDate y m d then ⟨y, m, d⟩ else ⟨y, 2, 28⟩

/-- The occurrence of the (2, 29) target observed in year `y`: February 29 in a
leap year, otherwise the substituted February 28 (the spec's leap-day rule). -/
def feb29Observed (y : Nat) : Date :=
  if isLeap y then ⟨y, 2, 29⟩ else ⟨y, 2, 28⟩

/-! ## Calendar arithmetic lemmas -/

lemma daysInMonth_pos (y m : Nat) (h1 : 1 ≤ m) (h2 : m ≤ 12) :
    1 ≤ daysInMonth y m := by
  interval_cases m <;> cases h : isLeap y <;> simp [daysInMonth, h]

lemma daysBeforeMonth_succ (y m : Nat) (h1 : 1 ≤ m) (h2 : m ≤ 11) :
    daysBeforeMonth y (m + 1) = daysBeforeMonth y m + daysInMonth y m := by
  interval_cases m <;> cases h : isLeap y <;> simp [daysBeforeMonth, daysInMonth, h]

lemma isLeap_iff (y : Nat) :
    isLeap y = true ↔ ((4 ∣ y ∧ ¬ (100 ∣ y)) ∨ 400 ∣ y) := by
  simp [isLeap, Nat.dvd_iff_mod_eq_zero]

lemma daysBeforeYear_succ (y : Nat) (h : 1 ≤ y) :
    daysBeforeYear (y + 1) = daysBeforeYear y + (if isLeap y then 366 else 365) := by
  have hy1 : y - 1 + 1 = y := by omega
  have e4 : y / 4 = (y - 1) / 4 + (if 4 ∣ y then 1 else 0) := by
    conv_lhs => rw [← hy1]
    rw [Nat.succ_div, hy1]
  have e100 : y / 100 = (y - 1) / 100 + (if 100 ∣ y then 1 else 0) := by
    conv_lhs => rw [← hy1]
    rw [Nat.succ_div, hy1]
  have e400 : y / 400 = (y - 1) / 400 + (if 400 ∣ y then 1 else 0) := by
    conv_lhs => rw [← hy1]
    rw [Nat.succ_div, hy1]
  have hba : (y - 1) / 100 ≤ (y - 1) / 4 := Nat.div_le_div_left (by norm_num) (by norm_num)
  have h1004 : (100 : Nat) ∣ y → 4 ∣ y := fun hd => dvd_trans (by norm_num) hd
  have h400100 : (400 : Nat) ∣ y → 100 ∣ y := fun hd => dvd_trans (by norm_num) hd
  have hleap := isLeap_iff y
  simp only [daysBeforeYear, Nat.add_sub_cancel]
  rw [e4, e100, e400]
  cases hl : isLeap y <;> rw [hl] at hleap <;>
    by_cases d4 : 4 ∣ y <;> by_cases d100 : 100 ∣ y <;> by_cases d400 : 400 ∣ y <;>
    simp [d4, d100, d400] at hleap ⊢ <;> omega

lemma succDate_spec (d : Date) (h : d.valid) :
    (succDate d).valid ∧ toOrdinal (succDate d) = toOrdinal d + 1 := by
  obtain ⟨y, m, dd⟩ := d
  have h' : validDate y m dd := h
  obtain ⟨hy, hm1, hm2, hd1, hd2⟩ := h'
  by_cases hlt : dd < daysInMonth y m
  · have hs : succDate ⟨y, m, dd⟩ = ⟨y, m, dd + 1⟩ := by simp [succDate, hlt]
    rw [hs]
    refine ⟨show validDate y m (dd + 1) from ⟨hy, hm1, hm2, by omega, by omega⟩, ?_⟩
    simp only [toOrdinal]
    omega
  · have hdd : dd = daysInMonth y m := le_antisymm hd2 (not_lt.mp hlt)
    by_cases hm : m < 12
    · have hs : succDate ⟨y, m, dd⟩ = ⟨y, m + 1, 1⟩ := by simp [succDate, hlt, hm]
      rw [hs]
      have hdbm := daysBeforeMonth_succ y m hm1 (by omega)
      have hpos := daysInMonth_pos y (m + 1) (by omega) (by omega)
      refine ⟨show validDate y (m + 1) 1 from ⟨hy, by omega, by omega, le_refl 1, hpos⟩, ?_⟩
      simp only [toOrdinal]
      omega
    · have hm12 : m = 12 := by omega
      subst hm12
      have hdd31 : dd = 31 := by simpa [daysInMonth] using hdd
      subst hdd31
      have hs : succDate ⟨y, 12, 31⟩ = ⟨y + 1, 1, 1⟩ := by simp [succDate, daysInMonth]
      rw [hs]
      have hdby := daysBeforeYear_succ y hy
      refine ⟨show validDate (y + 1) 1 1 from
        ⟨by omega, by omega, by omega, le_refl 1, by simp [daysInMonth]⟩, ?_⟩
      simp only [toOrdinal, daysBeforeMonth]
      cases hleap : isLeap y <;> simp [hleap] at hdby ⊢ <;> omega

lemma predDate_spec (d : Date) (h : d.valid) (hne : d ≠ ⟨1, 1, 1⟩) :
    (predDate d).valid ∧ succDate (predDate d) = d := by
  obtain ⟨y, m, dd⟩ := d
  have h' : validDate y m dd := h
  obtain ⟨hy, hm1, hm2, hd1, hd2⟩ := h'
  by_cases hday : 1 < dd
  · have hs : predDate ⟨y, m, dd⟩ = ⟨y, m, dd - 1⟩ := by simp [predDate, hday]
    rw [hs]
    refine ⟨show validDate y m (dd - 1) from ⟨hy, hm1, hm2, by omega, by omega⟩, ?_⟩
    have hlt : dd - 1 < daysInMonth y m := by omega
    simp [succDate, hlt]
    omega
  · have hdd1 : dd = 1 := by omega
    subst hdd1
    by_cases hm : 1 < m
    · have hdimpos := daysInMonth_pos y (m - 1) (by omega) (by omega)
      have hs : predDate ⟨y, m, 1⟩ = ⟨y, m - 1, daysInMonth y (m - 1)⟩ := by
        simp [predDate, hm]
      rw [hs]
      refine ⟨show validDate y (m - 1) (daysInMonth y (m - 1)) from
        ⟨hy, by omega, by omega, hdimpos, le_refl _⟩, ?_⟩
      have hnotlt : ¬ daysInMonth y (m - 1) < daysInMonth y (m - 1) := lt_irrefl _
      have hmlt : m - 1 < 12 := by omega
      simp [succDate, hnotlt, hmlt]
      omega
    · have hm1' : m = 1 := by omega
      subst hm1'
      have hy2 : 2 ≤ y := by
        rcases Nat.lt_or_ge y 2 with hlt | hge
        · exfalso
          apply hne
          have hy1 : y = 1 := by omega
          rw [hy1]
        · exact hge
      have hs : predDate ⟨y, 1, 1⟩ = ⟨y - 1, 12, 31⟩ := by simp [predDate]
      rw [hs]
      refine ⟨show validDate (y - 1) 12 31 from
        ⟨by omega, by omega, by omega, by omega, by simp [daysInMonth]⟩, ?_⟩
      simp [succDate, daysInMonth]
      omega

lemma predDate_ordinal (d : Date) (h : d.valid) (hne : d ≠ ⟨1, 1, 1⟩) :
    (predDate d).valid ∧ toOrdinal (predDate d) + 1 = toOrdinal d := by
  obtain ⟨hv, hs⟩ := predDate_spec d h hne
  obtain ⟨_, hord⟩ := succDate_spec (predDate d) hv
  rw [hs] at hord
  exact ⟨hv, hord.symm⟩

lemma addDays_spec (d : Date) (h : d.valid) (n : Nat) :
    (addDays d n).valid ∧ toOrdinal (addDays d n) = toOrdinal d + n := by
  induction n with
  | zero => exact ⟨h, rfl⟩
  | succ k ih =>
    obtain ⟨hv, hord⟩ := ih
    obtain ⟨hv', hord'⟩ := succDate_spec (addDays d k) hv
    refine ⟨hv', ?_⟩
    show toOrdinal (succDate (addDays d k)) = toOrdinal d + (k + 1)
    omega

lemma addDays_addDays (d : Date) (a b : Nat) :
    addDays (addDays d a) b = addDays d (a + b) := by
  induction b with
  | zero => rfl
  | succ k ih =>
    have hab : a + (k + 1) = (a + k) + 1 := by omega
    rw [hab]
    show succDate (addDays (addDays d a) k) = succDate (addDays d (a + k))
    rw [ih]

lemma weekday_lt_seven (d : Date) : weekday d < 7 := Nat.mod_lt _ (by omega)

lemma epoch_weekday : weekday ⟨1, 1, 1⟩ = 0 := by decide

lemma back_up_to_monday_fuel_spec (n : Nat) :
    ∀ d : Date, d.valid → weekday d ≤ n →
      ∃ r : Date, back_up_to_monday_fuel (n + 1) d = some r ∧ r.valid ∧
        weekday r = 0 ∧ toOrdinal r + weekday d = toOrdinal d := by
  induction n with
  | zero =>
    intro d hv hw
    have hw0 : weekday d = 0 := by omega
    exact ⟨d, by simp [back_up_to_monday_fuel, hw0], hv, hw0, by omega⟩
  | succ k ih =>
    intro d hv hw
    by_cases hw0 : weekday d = 0
    · exact ⟨d, by simp [back_up_to_monday_fuel, hw0], hv, hw0, by omega⟩
    · have hne : d ≠ ⟨1, 1, 1⟩ := by
        intro he
        rw [he] at hw0
        exact hw0 epoch_weekday
      obtain ⟨hpv, hpord⟩ := predDate_ordinal d hv hne
      have hpw : weekday (predDate d) + 1 = weekday d := by
        have h1 : weekday d = (toOrdinal d + 6) % 7 := rfl
        have h2 : weekday (predDate d) = (toOrdinal (predDate d) + 6) % 7 := rfl
        omega
      obtain ⟨r, hr, hrv, hrw, hrord⟩ := ih (predDate d) hpv (by omega)
      refine ⟨r, ?_, hrv, hrw, by omega⟩
      simpa [back_up_to_monday_fuel, hw0] using hr

lemma back_up_to_monday_spec (d : Date) (h : d.valid) :
    ∃ r : Date, back_up_to_monday d = some r ∧ r.valid ∧ weekday r = 0 ∧
      toOrdinal r + weekday d = toOrdinal d := by
  have hw : weekday d ≤ 6 := by
    have := weekday_lt_seven d
    omega
  exact back_up_to_monday_fuel_spec 6 d h hw


lemma daysInMonth_one_le (y m : Nat) (h1 : 1 ≤ m) (h2 : m ≤ 12) :
    daysInMonth 1 m ≤ daysInMonth y m := by
  have hl : isLeap 1 = false := rfl
  interval_cases m <;> cases h : isLeap y <;> simp [daysInMonth, hl, h]

lemma candidateDate_eq_canDate (m d y : Nat) (ht : targetOK m d) (hy : 1 ≤ y) :
    candidateDate y m d = some (canDate y m d) := by
  rcases ht with ⟨hm1, hm2, hd1, hd2⟩ | ⟨hm, hd⟩
  · have hv : validDate y m d :=
      ⟨hy, hm1, hm2, hd1, le_trans hd2 (daysInMonth_one_le y m hm1 hm2)⟩
    simp [candidateDate, canDate, hv]
  · subst hm; subst hd
    by_cases hv : validDate y 2 29
    · simp [candidateDate, canDate, hv]
    · have hv28 : validDate y 2 28 := by
        refine ⟨hy, by omega, by omega, by omega, ?_⟩
        simp [daysInMonth]
        split <;> omega
      simp [candidateDate, canDate, hv, hv28]

lemma canDate_valid (m d y : Nat) (ht : targetOK m d) (hy : 1 ≤ y) :
    (canDate y m d).valid := by
  rcases ht with ⟨hm1, hm2, hd1, hd2⟩ | ⟨hm, hd⟩
  · have hv : validDate y m d :=
      ⟨hy, hm1, hm2, hd1, le_trans hd2 (daysInMonth_one_le y m hm1 hm2)⟩
    have hs : canDate y m d = ⟨y, m, d⟩ := by simp [canDate, hv]
    rw [hs]
    exact hv
  · subst hm; subst hd
    by_cases hv : validDate y 2 29
    · have hs : canDate y 2 29 = ⟨y, 2, 29⟩ := by simp [canDate, hv]
      rw [hs]
      exact hv
    · have hv28 : validDate y 2 28 := by
        refine ⟨hy, by omega, by omega, by omega, ?_⟩
        simp [daysInMonth]
        split <;> omega
      have hs : canDate y 2 29 = ⟨y, 2, 28⟩ := by simp [canDate, hv]
      rw [hs]
      exact hv28

lemma validDate_feb29 (y : Nat) (hy : 1 ≤ y) :
    validDate y 2 29 ↔ isLeap y = true := by
  constructor
  · rintro ⟨-, -, -, -, h29⟩
    cases h : isLeap y
    · simp [daysInMonth, h] at h29
    · rfl
  · intro h
    exact ⟨hy, by omega, by omega, by omega, by simp [daysInMonth, h]⟩

/-- Consecutive occurrences of a fixed target are at least 365 days apart. -/
lemma canDate_gap (m d y : Nat) (ht : targetOK m d) (hy : 1 ≤ y) :
    toOrdinal (canDate y m d) + 365 ≤ toOrdinal (canDate (y + 1) m d) := by
  have hdby := daysBeforeYear_succ y hy
  rcases ht with ⟨hm1, hm2, hd1, hd2⟩ | ⟨hm, hd⟩
  · have hv : validDate y m d :=
      ⟨hy, hm1, hm2, hd1, le_trans hd2 (daysInMonth_one_le y m hm1 hm2)⟩
    have hv' : validDate (y + 1) m d :=
      ⟨by omega, hm1, hm2, hd1, le_trans hd2 (daysInMonth_one_le (y + 1) m hm1 hm2)⟩
    simp only [canDate, hv, hv', if_pos, toOrdinal, daysBeforeMonth]
    by_cases h3 : 3 ≤ m
    · simp only [h3, true_and]
      cases hl : isLeap y <;> cases hl' : isLeap (y + 1) <;>
        simp [hl, hl'] at hdby ⊢ <;> omega
    · simp only [h3, false_and, if_false]
      cases hl : isLeap y <;> simp [hl] at hdby ⊢ <;> omega
  · subst hm; subst hd
    have hord : ∀ z : Nat, 1 ≤ z →
        toOrdinal (canDate z 2 29) = daysBeforeYear z + 59 + (if isLeap z then 1 else 0) := by
      intro z hz
      by_cases hv : validDate z 2 29
      · have hl : isLeap z = true := (validDate_feb29 z hz).mp hv
        simp [canDate, hv, toOrdinal, daysBeforeMonth, hl]
      · have hl : ¬ isLeap z = true := fun h => hv ((validDate_feb29 z hz).mpr h)
        simp only [Bool.not_eq_true] at hl
        simp [canDate, hv, toOrdinal, daysBeforeMonth, hl]
    rw [hord y hy, hord (y + 1) (by omega)]
    cases hl : isLeap y <;> cases hl' : isLeap (y + 1) <;>
      simp [hl, hl'] at hdby ⊢ <;> omega

lemma canDate_mono (m d : Nat) (ht : targetOK m d) :
    ∀ y y' : Nat, 1 ≤ y → y ≤ y' →
      toOrdinal (canDate y m d) ≤ toOrdinal (canDate y' m d) := by
  intro y y' hy hle
  induction y' with
  | zero => omega
  | succ k ih =>
    rcases Nat.lt_or_ge y (k + 1) with hlt | hge
    · have hk : 1 ≤ k := by omega
      have h1 := ih (by omega)
      have h2 := canDate_gap m d k ht hk
      omega
    · have : y = k + 1 := by omega
      rw [this]

lemma canDate_gap_of_lt (m d y y' : Nat) (ht : targetOK m d) (hy : 1 ≤ y)
    (hlt : y < y') :
    toOrdinal (canDate y m d) + 365 ≤ toOrdinal (canDate y' m d) := by
  have h1 := canDate_gap m d y ht hy
  have h2 := canDate_mono m d ht (y + 1) y' (by omega) (by omega)
  omega

/-- Under `targetOK`, `is_current_week` returns exactly the window test on the
two substituted candidate occurrences. -/
lemma is_current_week_eq (now : Date) (m d : Nat) (ht : targetOK m d)
    (hy : 1 ≤ now.year) :
    is_current_week now m d =
      some (inWeekWindow now (canDate now.year m d) ||
            inWeekWindow now (canDate (now.year + 1) m d)) := by
  rw [is_current_week, candidateDate_eq_canDate m d now.year ht hy,
    candidateDate_eq_canDate m d (now.year + 1) ht (by omega)]
  rfl

lemma is_current_week_true_elim (now : Date) (m d : Nat) (ht : targetOK m d)
    (hy : 1 ≤ now.year) (h : is_current_week now m d = some true) :
    ∃ y : Nat, (y = now.year ∨ y = now.year + 1) ∧
      toOrdinal now ≤ toOrdinal (canDate y m d) ∧
      toOrdinal (canDate y m d) < toOrdinal now + 7 := by
  rw [is_current_week_eq now m d ht hy] at h
  have h2 : inWeekWindow now (canDate now.year m d) = true ∨
      inWeekWindow now (canDate (now.year + 1) m d) = true := by
    simpa using Option.some.inj h
  rcases h2 with hw | hw
  · simp only [inWeekWindow, Bool.and_eq_true, decide_eq_true_eq] at hw
    exact ⟨now.year, Or.inl rfl, hw.1, hw.2⟩
  · simp only [inWeekWindow, Bool.and_eq_true, decide_eq_true_eq] at hw
    exact ⟨now.year + 1, Or.inr rfl, hw.1, hw.2⟩

/-- Core disjointness argument: two week-windows at least 7 and at most 358
days apart cannot both contain an occurrence of the same target, because
distinct-year occurrences are ≥ 365 days apart and same-year occurrences
coincide. -/
lemma is_current_week_at_most_one (m d : Nat) (a b : Date) (ht : targetOK m d)
    (hya : 1 ≤ a.year) (hyb : 1 ≤ b.year)
    (hab : toOrdinal a + 7 ≤ toOrdinal b)
    (hspan : toOrdinal b + 7 ≤ toOrdinal a + 365)
    (hsa : is_current_week a m d = some true)
    (hsb : is_current_week b m d = some true) : False := by
  obtain ⟨ya, hya2, ha1, ha2⟩ := is_current_week_true_elim a m d ht hya hsa
  obtain ⟨yb, hyb2, hb1, hb2⟩ := is_current_week_true_elim b m d ht hyb hsb
  have hya1 : 1 ≤ ya := by rcases hya2 with h | h <;> omega
  have hyb1 : 1 ≤ yb := by rcases hyb2 with h | h <;> omega
  rcases Nat.lt_trichotomy ya yb with hlt | heq | hgt
  · have := canDate_gap_of_lt m d ya yb ht hya1 hlt
    omega
  · rw [heq] at ha1 ha2
    omega
  · have := canDate_gap_of_lt m d yb ya ht hyb1 hgt
    omega

/-! ## Structure of the drawn grid -/

lemma targetOK_of_valid (y m d : Nat) (h : validDate y m d) : targetOK m d := by
  obtain ⟨hy, hm1, hm2, hd1, hd2⟩ := h
  by_cases h229 : m = 2 ∧ d = 29
  · exact Or.inr h229
  · refine Or.inl ⟨hm1, hm2, hd1, ?_⟩
    rcases eq_or_ne m 2 with hm | hm
    · subst hm
      have hne29 : d ≠ 29 := fun hd => h229 ⟨rfl, hd⟩
      have hdim : daysInMonth y 2 ≤ 29 := by
        simp only [daysInMonth]
        split <;> omega
      have h28 : daysInMonth 1 2 = 28 := rfl
      omega
    · have heq : daysInMonth 1 m = daysInMonth y m := by
        interval_cases m <;> simp_all [daysInMonth]
      omega

lemma targetOK_new_year : targetOK 1 1 := by decide

lemma is_current_week_isSome (now : Date) (m d : Nat) (ht : targetOK m d)
    (hy : 1 ≤ now.year) : ∃ b : Bool, is_current_week now m d = some b :=
  ⟨_, is_current_week_eq now m d ht hy⟩

lemma cell_fill_isSome (date birth : Date) (darken : Option Date)
    (ht : targetOK birth.month birth.day) (hy : 1 ≤ date.year) :
    ∃ f : Fill, cell_fill date birth darken = some f := by
  obtain ⟨b1, hb1⟩ := is_current_week_isSome date birth.month birth.day ht hy
  obtain ⟨b2, hb2⟩ := is_current_week_isSome date 1 1 targetOK_new_year hy
  cases b1 <;> cases b2 <;> rcases darken with _ | du <;>
    simp [cell_fill, hb1, hb2]

lemma draw_row_go_spec (birth : Date) (darken : Option Date) (bs : ℚ)
    (ht : targetOK birth.month birth.day) :
    ∀ (n : Nat) (date : Date) (px : ℚ), date.valid →
      ∃ cells : List Cell, draw_row_go birth darken bs n date px = some cells ∧
        cells.length = n ∧
        ∀ i (hi : i < cells.length),
          (cells.get ⟨i, hi⟩).date = addDays date (7 * i) ∧
          (cells.get ⟨i, hi⟩).posX = px + i * (bs + 6) := by
  intro n
  induction n with
  | zero =>
    intro date px hv
    refine ⟨[], rfl, rfl, ?_⟩
    intro i hi
    simp at hi
  | succ k ih =>
    intro date px hv
    obtain ⟨f, hf⟩ := cell_fill_isSome date birth darken ht hv.1
    obtain ⟨cells, hc, hlen, hidx⟩ :=
      ih (addDays date 7) (px + (bs + 6)) (addDays_spec date hv 7).1
    refine ⟨⟨date, px, f⟩ :: cells, ?_, by simp [hlen], ?_⟩
    · simp [draw_row_go, hf, hc]
    · intro i hi
      cases i with
      | zero =>
        constructor
        · show date = addDays date (7 * 0)
          simp [addDays]
        · show px = px + ((0 : Nat) : ℚ) * (bs + 6)
          simp
      | succ j =>
        have hj : j < cells.length := by
          simp at hi
          omega
        obtain ⟨hd, hx⟩ := hidx j hj
        constructor
        · show (cells.get ⟨j, hj⟩).date = addDays date (7 * (j + 1))
          rw [hd, addDays_addDays]
          congr 1
          omega
        · show (cells.get ⟨j, hj⟩).posX = px + ((j + 1 : Nat) : ℚ) * (bs + 6)
          rw [hx]
          push_cast
          ring

lemma draw_grid_go_spec (birth : Date) (darken : Option Date) (bs xm : ℚ)
    (ht : targetOK birth.month birth.day) :
    ∀ (n : Nat) (date : Date) (py : ℚ), date.valid →
      ∃ rows : List RowData, draw_grid_go birth darken bs xm n date py = some rows ∧
        rows.length = n ∧
        ∀ r (hr : r < rows.length),
          (rows.get ⟨r, hr⟩).label = addDays date (7 * 52 * r) ∧
          (rows.get ⟨r, hr⟩).posY = py + r * (bs + 6) ∧
          (rows.get ⟨r, hr⟩).cells.length = 52 ∧
          ∀ c (hc : c < (rows.get ⟨r, hr⟩).cells.length),
            ((rows.get ⟨r, hr⟩).cells.get ⟨c, hc⟩).date =
              addDays date (7 * (52 * r + c)) ∧
            ((rows.get ⟨r, hr⟩).cells.get ⟨c, hc⟩).posX = xm + c * (bs + 6) := by
  intro n
  induction n with
  | zero =>
    intro date py hv
    refine ⟨[], rfl, rfl, ?_⟩
    intro r hr
    simp at hr
  | succ k ih =>
    intro date py hv
    obtain ⟨cells, hc, hclen, hcidx⟩ := draw_row_go_spec birth darken bs ht 52 date xm hv
    obtain ⟨rows, hrw, hrlen, hridx⟩ :=
      ih (addDays date (7 * 52)) (py + (bs + 6)) (addDays_spec date hv (7 * 52)).1
    refine ⟨⟨date, py, cells⟩ :: rows, ?_, by simp [hrlen], ?_⟩
    · simp [draw_grid_go, draw_row, hc, hrw]
    · intro r hr
      cases r with
      | zero =>
        refine ⟨by simp [addDays], by simp, hclen, ?_⟩
        intro c hc'
        have hc2 : c < cells.length := hc'
        obtain ⟨hcd, hcx⟩ := hcidx c hc2
        constructor
        · show (cells.get ⟨c, hc2⟩).date = addDays date (7 * (52 * 0 + c))
          rw [hcd]
          congr 1
          omega
        · show (cells.get ⟨c, hc2⟩).posX = xm + (c : ℚ) * (bs + 6)
          exact hcx
      | succ j =>
        have hj : j < rows.length := by
          simp at hr
          omega
        obtain ⟨hlab, hpy, hlen52, hcells⟩ := hridx j hj
        refine ⟨?_, ?_, hlen52, ?_⟩
        · show (rows.get ⟨j, hj⟩).label = addDays date (7 * 52 * (j + 1))
          rw [hlab, addDays_addDays]
          congr 1
          omega
        · show (rows.get ⟨j, hj⟩).posY = py + ((j + 1 : Nat) : ℚ) * (bs + 6)
          rw [hpy]
          push_cast
          ring
        · intro c hc'
          obtain ⟨hcd, hcx⟩ := hcells c hc'
          refine ⟨?_, hcx⟩
          show ((rows.get ⟨j, hj⟩).cells.get ⟨c, hc'⟩).date =
            addDays date (7 * (52 * (j + 1) + c))
          rw [hcd, addDays_addDays]
          congr 1
          omega

lemma draw_grid_spec (start birth : Date) (age : Nat) (darken : Option Date)
    (hv : start.valid) (ht : targetOK birth.month birth.day) :
    ∃ rows : List RowData,
      draw_grid start birth age darken = some (x_margin age, rows) ∧
      rows.length = age ∧
      ∀ r (hr : r < rows.length),
        (rows.get ⟨r, hr⟩).label = addDays start (7 * 52 * r) ∧
        (rows.get ⟨r, hr⟩).posY = 144 + r * (box_size age + 6) ∧
        (rows.get ⟨r, hr⟩).cells.length = 52 ∧
        ∀ c (hc : c < (rows.get ⟨r, hr⟩).cells.length),
          ((rows.get ⟨r, hr⟩).cells.get ⟨c, hc⟩).date =
            addDays start (7 * (52 * r + c)) ∧
          ((rows.get ⟨r, hr⟩).cells.get ⟨c, hc⟩).posX =
            x_margin age + c * (box_size age + 6) := by
  obtain ⟨rows, hrw, hrlen, hridx⟩ :=
    draw_grid_go_spec birth darken (box_size age) (x_margin age) ht age start 144 hv
  refine ⟨rows, by simp [draw_grid, hrw], hrlen, hridx⟩

/-! ## Remaining supporting lemmas -/

lemma canDate_feb29 (y : Nat) (hy : 1 ≤ y) : canDate y 2 29 = feb29Observed y := by
  by_cases hl : isLeap y = true
  · have hv : validDate y 2 29 := (validDate_feb29 y hy).mpr hl
    simp [canDate, feb29Observed, hv, hl]
  · have hv : ¬ validDate y 2 29 := fun h => hl ((validDate_feb29 y hy).mp h)
    rw [Bool.not_eq_true] at hl
    simp [canDate, feb29Observed, hv, hl]

/-- Decomposition of the darken-until branch of `cell_fill`: the fill with a
darken date is the fill without one, hard-overridden by the elapsed colour when
`is_future` holds. -/
lemma cell_fill_darken (cell birth du : Date) (f : Fill)
    (hf : cell_fill cell birth (some du) = some f) :
    ∃ g : Fill, cell_fill cell birth none = some g ∧
      f = if is_future cell du = true then Fill.darkenedColourDelta else g := by
  cases h1 : is_current_week cell birth.month birth.day with
  | none => simp [cell_fill, h1] at hf
  | some b1 =>
    cases b1 with
    | true =>
      refine ⟨Fill.birthdayColour, by simp [cell_fill, h1], ?_⟩
      simp [cell_fill, h1] at hf
      exact hf.symm
    | false =>
      cases h2 : is_current_week cell 1 1 with
      | none => simp [cell_fill, h1, h2] at hf
      | some b2 =>
        refine ⟨if b2 then Fill.newyearColour else Fill.backgroundColor,
          by simp [cell_fill, h1, h2], ?_⟩
        simp [cell_fill, h1, h2] at hf
        exact hf.symm

/-! ## Claims -/

/-- C1.  If a darken-until date is configured and the cell's date is strictly
before it, the fill is the Elapsed (darkened) fill, replacing whatever
classification chose — a hard override; a cell dated on or after the
darken-until date keeps exactly the fill classification chose (the bound is
exclusive). -/
theorem darken_until_hard_override (cell birth du : Date) (f : Fill)
    (hf : cell_fill cell birth (some du) = some f) :
    (toOrdinal cell < toOrdinal du → f = Fill.darkenedColourDelta) ∧
    (toOrdinal du ≤ toOrdinal cell → cell_fill cell birth none = some f) := by
  obtain ⟨g, hg, hfg⟩ := cell_fill_darken cell birth du f hf
  constructor
  · intro hlt
    have hif : is_future cell du = true := by
      simp only [is_future, decide_eq_true_eq]
      exact hlt
    rw [hfg, if_pos hif]
  · intro hge
    have hif : is_future cell du = false := by
      simp only [is_future, decide_eq_false_iff_not]
      omega
    rw [hfg, if_neg (by simp [hif])]
    exact hg

theorem darken_until_hard_override_witness :
    cell_fill ⟨2020, 5, 4⟩ ⟨1990, 7, 20⟩ (some ⟨2024, 6, 3⟩) =
      some Fill.darkenedColourDelta ∧
    (toOrdinal ⟨2020, 5, 4⟩ < toOrdinal ⟨2024, 6, 3⟩ →
      Fill.darkenedColourDelta = Fill.darkenedColourDelta) :=
  ⟨by decide,
   (darken_until_hard_override ⟨2020, 5, 4⟩ ⟨1990, 7, 20⟩ ⟨2024, 6, 3⟩
      Fill.darkenedColourDelta (by decide)).1⟩

/-- C2.  Classification precedence, first match wins: birthday week →
Birthday fill; else new-year week → NewYear fill; else Ordinary (background).
When the birth date is January 1, the birthday test is the January-1 test, so
a cell matching both classifies as Birthday. -/
theorem classification_precedence (cell birth : Date) (f : Fill)
    (hf : cell_fill cell birth none = some f) :
    (is_current_week cell birth.month birth.day = some true →
      f = Fill.birthdayColour) ∧
    (is_current_week cell birth.month birth.day = some false →
      is_current_week cell 1 1 = some true → f = Fill.newyearColour) ∧
    (is_current_week cell birth.month birth.day = some false →
      is_current_week cell 1 1 = some false → f = Fill.backgroundColor) ∧
    (birth.month = 1 → birth.day = 1 → is_current_week cell 1 1 = some true →
      f = Fill.birthdayColour) := by
  refine ⟨?_, ?_, ?_, ?_⟩
  · intro h1
    simp [cell_fill, h1] at hf
    exact hf.symm
  · intro h1 h2
    simp [cell_fill, h1, h2] at hf
    exact hf.symm
  · intro h1 h2
    simp [cell_fill, h1, h2] at hf
    exact hf.symm
  · intro hm hd h1
    have h1' : is_current_week cell birth.month birth.day = some true := by
      rw [hm, hd]
      exact h1
    simp [cell_fill, h1'] at hf
    exact hf.symm

theorem classification_precedence_witness :
    cell_fill ⟨2024, 1, 1⟩ ⟨1990, 1, 1⟩ none = some Fill.birthdayColour ∧
    ((Date.mk 1990 1 1).month = 1 → (Date.mk 1990 1 1).day = 1 →
      is_current_week ⟨2024, 1, 1⟩ 1 1 = some true →
      Fill.birthdayColour = Fill.birthdayColour) :=
  ⟨by decide,
   (classification_precedence ⟨2024, 1, 1⟩ ⟨1990, 1, 1⟩ Fill.birthdayColour
      (by decide)).2.2.2⟩

/-- C3.  For target (2, 29), `is_current_week` checks the candidate years
`now.year` and `now.year + 1` against the half-open window [now, now+7 days),
substituting February 28 for February 29 whenever the candidate year is not a
leap year — it never propagates an error. -/
theorem leap_day_substitution (now : Date) (hy : 1 ≤ now.year) :
    is_current_week now 2 29 =
      some (inWeekWindow now (feb29Observed now.year) ||
            inWeekWindow now (feb29Observed (now.year + 1))) := by
  rw [is_current_week_eq now 2 29 (Or.inr ⟨rfl, rfl⟩) hy,
    canDate_feb29 now.year hy, canDate_feb29 (now.year + 1) (by omega)]

theorem leap_day_substitution_witness :
    1 ≤ (Date.mk 2023 2 28).year ∧
    is_current_week ⟨2023, 2, 28⟩ 2 29 = some true := by
  refine ⟨by decide, ?_⟩
  rw [leap_day_substitution ⟨2023, 2, 28⟩ (by decide)]
  decide

/-- C5.  For every valid date, `back_up_to_monday` terminates (fuel 7 returns a
result) and yields a Monday at most 6 days earlier. -/
theorem back_up_to_monday_monday (d : Date) (h : d.valid) :
    ∃ r : Date, back_up_to_monday d = some r ∧ weekday r = 0 ∧
      toOrdinal r ≤ toOrdinal d ∧ toOrdinal d < toOrdinal r + 7 := by
  obtain ⟨r, hr, hrv, hrw, hrord⟩ := back_up_to_monday_spec d h
  have hlt := weekday_lt_seven d
  exact ⟨r, hr, hrw, by omega, by omega⟩

theorem back_up_to_monday_monday_witness :
    (Date.mk 1990 6 15).valid ∧
    ∃ r : Date, back_up_to_monday ⟨1990, 6, 15⟩ = some r ∧ weekday r = 0 ∧
      toOrdinal r ≤ toOrdinal ⟨1990, 6, 15⟩ ∧
      toOrdinal ⟨1990, 6, 15⟩ < toOrdinal r + 7 :=
  ⟨by decide, back_up_to_monday_monday ⟨1990, 6, 15⟩ (by decide)⟩

/-- C6.  The layout formulas of `draw_grid`, with the fixed page constants, and
strict positivity of the box size for every row count in [80, 100]. -/
theorem layout_formulas_and_positive (rows : Nat) (h80 : 80 ≤ rows)
    (h100 : rows ≤ 100) :
    box_size rows = ((2383 - (144 + 36)) / (rows : ℚ)) - 6 ∧
    x_margin rows = (1683 - ((box_size rows + 6) * 52)) / 2 ∧
    0 < box_size rows := by
  refine ⟨rfl, rfl, ?_⟩
  have h1 : ((rows : ℚ)) ≤ 100 := by exact_mod_cast h100
  have h2 : (0 : ℚ) < rows := by
    have : (80 : ℚ) ≤ rows := by exact_mod_cast h80
    linarith
  have h3 : (6 : ℚ) * rows < 2383 - (144 + 36) := by nlinarith
  have h4 := (lt_div_iff₀ h2).mpr h3
  simp only [box_size]
  linarith

theorem layout_formulas_and_positive_witness :
    80 ≤ 90 ∧ 90 ≤ 100 ∧
    (box_size 90 = ((2383 - (144 + 36)) / ((90 : Nat) : ℚ)) - 6 ∧
     x_margin 90 = (1683 - ((box_size 90 + 6) * 52)) / 2 ∧
     0 < box_size 90) :=
  ⟨by norm_num, by norm_num, layout_formulas_and_positive 90 (by norm_num) (by norm_num)⟩

/-- C4.  With `startDate = back_up_to_monday(birthdate)`, the grid has exactly
`age` rows of exactly 52 cells; the cell at row `r`, column `c` is dated
`startDate + 7*(52*r + c)` days, row `r`'s label date is `startDate + 52*r`
weeks, and rows advance top-to-bottom (y grows with `r`) while columns advance
left-to-right (x grows with `c`). -/
theorem grid_shape_and_dates (birth : Date) (age : Nat) (darken : Option Date)
    (hv : birth.valid) (_h80 : 80 ≤ age) (_h100 : age ≤ 100) :
    ∃ (start : Date) (rows : List RowData),
      back_up_to_monday birth = some start ∧
      draw_grid start birth age darken = some (x_margin age, rows) ∧
      rows.length = age ∧
      ∀ r (hr : r < rows.length),
        (rows.get ⟨r, hr⟩).cells.length = 52 ∧
        (rows.get ⟨r, hr⟩).label = addDays start (7 * (52 * r)) ∧
        (rows.get ⟨r, hr⟩).posY = 144 + r * (box_size age + 6) ∧
        ∀ c (hc : c < (rows.get ⟨r, hr⟩).cells.length),
          ((rows.get ⟨r, hr⟩).cells.get ⟨c, hc⟩).date =
            addDays start (7 * (52 * r + c)) ∧
          ((rows.get ⟨r, hr⟩).cells.get ⟨c, hc⟩).posX =
            x_margin age + c * (box_size age + 6) := by
  obtain ⟨start, hs, hsv, hsm, hso⟩ := back_up_to_monday_spec birth hv
  obtain ⟨rows, hg, hlen, hidx⟩ := draw_grid_spec start birth age darken hsv
    (targetOK_of_valid birth.year birth.month birth.day hv)
  refine ⟨start, rows, hs, hg, hlen, ?_⟩
  intro r hr
  obtain ⟨hlab, hpy, hclen, hcells⟩ := hidx r hr
  refine ⟨hclen, ?_, hpy, hcells⟩
  rw [hlab]
  congr 1
  omega

theorem grid_shape_and_dates_witness :
    (Date.mk 1990 6 15).valid ∧ 80 ≤ 90 ∧ 90 ≤ 100 ∧
    back_up_to_monday ⟨1990, 6, 15⟩ = some ⟨1990, 6, 11⟩ ∧
    weekday ⟨1990, 6, 11⟩ = 0 ∧
    (∃ (start : Date) (rows : List RowData),
      back_up_to_monday ⟨1990, 6, 15⟩ = some start ∧
      draw_grid start ⟨1990, 6, 15⟩ 90 none = some (x_margin 90, rows) ∧
      rows.length = 90 ∧
      ∀ r (hr : r < rows.length),
        (rows.get ⟨r, hr⟩).cells.length = 52 ∧
        (rows.get ⟨r, hr⟩).label = addDays start (7 * (52 * r)) ∧
        (rows.get ⟨r, hr⟩).posY = 144 + r * (box_size 90 + 6) ∧
        ∀ c (hc : c < (rows.get ⟨r, hr⟩).cells.length),
          ((rows.get ⟨r, hr⟩).cells.get ⟨c, hc⟩).date =
            addDays start (7 * (52 * r + c)) ∧
          ((rows.get ⟨r, hr⟩).cells.get ⟨c, hc⟩).posX =
            x_margin 90 + c * (box_size 90 + 6)) :=
  ⟨by decide, by norm_num, by norm_num, by decide, by decide,
   grid_shape_and_dates ⟨1990, 6, 15⟩ 90 none (by decide) (by norm_num) (by norm_num)⟩

/-- C7.  `gen_calendar` raises exactly when the title exceeds 30 characters or
the age lies outside [80, 100]; with a valid birth date and both checks passed
it succeeds, and the checks sit before any layout or drawing work in the
function body, so a validation failure renders nothing. -/
theorem validation_before_rendering (birth : Date) (title : String) (age : Int)
    (darken : Option Date) (hv : birth.valid) :
    (∃ g, gen_calendar birth title age darken = Except.ok g) ↔
      (title.length ≤ 30 ∧ 80 ≤ age ∧ age ≤ 100) := by
  constructor
  · rintro ⟨g, hg⟩
    by_cases h1 : title.length > 30
    · simp [gen_calendar, h1] at hg
    · by_cases h2 : age < 80 ∨ 100 < age
      · simp [gen_calendar, h1, h2] at hg
      · push_neg at h2
        exact ⟨by omega, h2.1, h2.2⟩
  · rintro ⟨ht30, h80, h100⟩
    have h1 : ¬ title.length > 30 := by omega
    have h2 : ¬ (age < 80 ∨ 100 < age) := by omega
    obtain ⟨start, hs, hsv, -, -⟩ := back_up_to_monday_spec birth hv
    obtain ⟨rows, hg, -, -⟩ := draw_grid_spec start birth age.toNat darken hsv
      (targetOK_of_valid birth.year birth.month birth.day hv)
    refine ⟨(x_margin age.toNat, rows), ?_⟩
    simp [gen_calendar, h1, h2, hs, hg]

theorem validation_before_rendering_witness :
    (Date.mk 1990 6 15).valid ∧
    ((∃ g, gen_calendar ⟨1990, 6, 15⟩ "LIFE CALENDAR" 90 none = Except.ok g) ↔
      (("LIFE CALENDAR").length ≤ 30 ∧ 80 ≤ (90 : Int) ∧ (90 : Int) ≤ 100)) :=
  ⟨by decide,
   validation_before_rendering ⟨1990, 6, 15⟩ "LIFE CALENDAR" 90 none (by decide)⟩

/-- C8, counterexample.  Row count 368 makes the computed box size non-positive,
yet `draw_grid` raises no error at all: the build succeeds — there is no
LayoutError (or any box-size check) in the code. -/
theorem no_layout_error_counterexample :
    box_size 368 ≤ 0 ∧
    ∃ g, draw_grid ⟨1970, 1, 5⟩ ⟨1970, 1, 5⟩ 368 none = some g := by
  constructor
  · norm_num [box_size]
  · obtain ⟨rows, hg, -, -⟩ := draw_grid_spec ⟨1970, 1, 5⟩ ⟨1970, 1, 5⟩ 368 none
      (by decide) (targetOK_of_valid 1970 1 5 (by decide))
    exact ⟨_, hg⟩

/-- C8, amended.  The code performs no box-size check: for every row count
making the box size non-positive (age ≥ 368 does), the grid build still
proceeds and succeeds; only `gen_calendar`'s age validation (80–100, where the
box size is positive) keeps such row counts out. -/
theorem no_layout_error_amended (start birth : Date) (age : Nat)
    (darken : Option Date) (hs : start.valid) (hb : birth.valid)
    (h368 : 368 ≤ age) :
    box_size age ≤ 0 ∧ ∃ g, draw_grid start birth age darken = some g := by
  constructor
  · have hc : (368 : ℚ) ≤ (age : ℚ) := by exact_mod_cast h368
    have h2 : (0 : ℚ) < age := by linarith
    have h3 : (2383 - (144 + 36) : ℚ) ≤ 6 * age := by nlinarith
    have h4 := (div_le_iff₀ h2).mpr h3
    simp only [box_size]
    linarith
  · obtain ⟨rows, hg, -, -⟩ := draw_grid_spec start birth age darken hs
      (targetOK_of_valid birth.year birth.month birth.day hb)
    exact ⟨_, hg⟩

theorem no_layout_error_amended_witness :
    (Date.mk 2001 1 1).valid ∧ 368 ≤ 400 ∧
    (box_size 400 ≤ 0 ∧
     ∃ g, draw_grid ⟨2001, 1, 1⟩ ⟨2001, 1, 1⟩ 400 none = some g) :=
  ⟨by decide, by norm_num,
   no_layout_error_amended ⟨2001, 1, 1⟩ ⟨2001, 1, 1⟩ 400 none (by decide) (by decide)
     (by norm_num)⟩

/-- C9, counterexample.  `is_current_week(datetime(2023, 3, 1), 2, 29)` does
not return true: the substituted Feb 28 2023 lies strictly before the window
[2023-03-01, 2023-03-08). -/
theorem leap_window_march1_counterexample :
    is_current_week ⟨2023, 3, 1⟩ 2 29 ≠ some true := by decide

/-- C9, amended.  `is_current_week(datetime(2023, 3, 1), 2, 29)` returns false:
the Feb-29 target is substituted with Feb 28 in non-leap 2023, but the window
is [now, now + 7 days) = [2023-03-01, 2023-03-08), which does not contain
Feb 28 2023; the calls at now = 2023-02-27 and now = 2023-02-28, whose windows
do contain Feb 28 2023, return true. -/
theorem leap_window_march1_amended :
    is_current_week ⟨2023, 3, 1⟩ 2 29 = some false ∧
    is_current_week ⟨2023, 2, 27⟩ 2 29 = some true ∧
    is_current_week ⟨2023, 2, 28⟩ 2 29 = some true := by decide

/-- C10.  In every row of the grid (52 cells, 7 days apart), at most one cell
satisfies the Birthday condition and at most one the NewYear condition: two
distinct cells of one row cannot both satisfy `is_current_week` for the same
target, because a row's disjoint 7-day windows span only 364 days while
successive occurrences of a fixed target (Feb-28 substitution included) are at
least 365 days apart. -/
theorem at_most_one_special_cell_per_row (start birth : Date) (age : Nat)
    (darken : Option Date) (m d r i j : Nat)
    (hs : start.valid) (hb : birth.valid)
    (htar : (m = birth.month ∧ d = birth.day) ∨ (m = 1 ∧ d = 1))
    (hr : r < age) (hi : i < 52) (hj : j < 52) (hne : i ≠ j) :
    ∃ (xm : ℚ) (rows : List RowData),
      draw_grid start birth age darken = some (xm, rows) ∧
      ∃ (hr' : r < rows.length) (hi' : i < (rows.get ⟨r, hr'⟩).cells.length)
        (hj' : j < (rows.get ⟨r, hr'⟩).cells.length),
        ¬(is_current_week ((rows.get ⟨r, hr'⟩).cells.get ⟨i, hi'⟩).date m d =
            some true ∧
          is_current_week ((rows.get ⟨r, hr'⟩).cells.get ⟨j, hj'⟩).date m d =
            some true) := by
  have ht : targetOK m d := by
    rcases htar with ⟨hm, hd⟩ | ⟨hm, hd⟩
    · rw [hm, hd]
      exact targetOK_of_valid birth.year birth.month birth.day hb
    · rw [hm, hd]
      exact targetOK_new_year
  obtain ⟨rows, hg, hlen, hidx⟩ := draw_grid_spec start birth age darken hs
    (targetOK_of_valid birth.year birth.month birth.day hb)
  have hr' : r < rows.length := by omega
  obtain ⟨hlab, hpy, hclen, hcells⟩ := hidx r hr'
  have hi' : i < (rows.get ⟨r, hr'⟩).cells.length := by omega
  have hj' : j < (rows.get ⟨r, hr'⟩).cells.length := by omega
  refine ⟨x_margin age, rows, hg, hr', hi', hj', ?_⟩
  rintro ⟨hsi, hsj⟩
  obtain ⟨hdi, -⟩ := hcells i hi'
  obtain ⟨hdj, -⟩ := hcells j hj'
  rw [hdi] at hsi
  rw [hdj] at hsj
  obtain ⟨hvi, hoi⟩ := addDays_spec start hs (7 * (52 * r + i))
  obtain ⟨hvj, hoj⟩ := addDays_spec start hs (7 * (52 * r + j))
  have hyi : 1 ≤ (addDays start (7 * (52 * r + i))).year := hvi.1
  have hyj : 1 ≤ (addDays start (7 * (52 * r + j))).year := hvj.1
  rcases Nat.lt_or_ge i j with hij | hij
  · have hab : toOrdinal (addDays start (7 * (52 * r + i))) + 7 ≤
        toOrdinal (addDays start (7 * (52 * r + j))) := by
      rw [hoi, hoj]
      omega
    have hspan : toOrdinal (addDays start (7 * (52 * r + j))) + 7 ≤
        toOrdinal (addDays start (7 * (52 * r + i))) + 365 := by
      rw [hoi, hoj]
      omega
    exact is_current_week_at_most_one m d _ _ ht hyi hyj hab hspan hsi hsj
  · have hji : j < i := by omega
    have hab : toOrdinal (addDays start (7 * (52 * r + j))) + 7 ≤
        toOrdinal (addDays start (7 * (52 * r + i))) := by
      rw [hoi, hoj]
      omega
    have hspan : toOrdinal (addDays start (7 * (52 * r + i))) + 7 ≤
        toOrdinal (addDays start (7 * (52 * r + j))) + 365 := by
      rw [hoi, hoj]
      omega
    exact is_current_week_at_most_one m d _ _ ht hyj hyi hab hspan hsj hsi

theorem at_most_one_special_cell_per_row_witness :
    (Date.mk 2001 1 8).valid ∧ (Date.mk 1990 6 15).valid ∧
    ((1 = (Date.mk 1990 6 15).month ∧ 1 = (Date.mk 1990 6 15).day) ∨
      (1 = 1 ∧ 1 = 1)) ∧
    0 < 90 ∧ 0 < 52 ∧ 1 < 52 ∧ (0 : Nat) ≠ 1 ∧
    (∃ (xm : ℚ) (rows : List RowData),
      draw_grid ⟨2001, 1, 8⟩ ⟨1990, 6, 15⟩ 90 none = some (xm, rows) ∧
      ∃ (hr' : 0 < rows.length) (hi' : 0 < (rows.get ⟨0, hr'⟩).cells.length)
        (hj' : 1 < (rows.get ⟨0, hr'⟩).cells.length),
        ¬(is_current_week ((rows.get ⟨0, hr'⟩).cells.get ⟨0, hi'⟩).date 1 1 =
            some true ∧
          is_current_week ((rows.get ⟨0, hr'⟩).cells.get ⟨1, hj'⟩).date 1 1 =
            some true)) :=
  ⟨by decide, by decide, by decide, by norm_num, by norm_num, by norm_num,
   by norm_num,
   at_most_one_special_cell_per_row ⟨2001, 1, 8⟩ ⟨1990, 6, 15⟩ 90 none 1 1 0 0 1
     (by decide) (by decide) (by decide) (by norm_num) (by norm_num)
     (by norm_num) (by norm_num)⟩
